import Mathlib

/-!
Verification of the FTL streaming output core
(src/plugins/obs-outputs/ftl-stream.c).

The definitions below are shallow embeddings of the C functions of
that file: byte buffers become `List Nat` (each element < 256 in any
real input; reads beyond the buffer yield 0, standing for whatever
byte the C code would read out of bounds), C `int` values become
`Int`, and the `while` loop of the NAL splitter becomes a
fuel-indexed recursion whose `fuelOut` status marks executions in
which the C loop has not yet terminated.
-/

set_option maxRecDepth 10000

namespace FtlStream

/-- `enum obs_encoder_type` restricted to the two values produced by
the encoders feeding this output. -/
inductive PType where
  | video
  | audio
deriving Repr, DecidableEq

/-- `struct encoder_packet`, keeping the fields ftl-stream.c reads:
the payload, the decode timestamps, the keyframe flag, the drop
priorities and the track index. -/
structure EncoderPacket where
  type : PType
  data : List Nat
  dts_usec : Int
  sys_dts_usec : Int
  keyframe : Bool
  priority : Int
  drop_priority : Int
  track_idx : Nat
deriving Repr, DecidableEq

/-- `OBS_NAL_PRIORITY_HIGHEST` from obs-avc.h (the enum value used by
`drop_frames` to recognise keyframes / essential reference units). -/
def OBS_NAL_PRIORITY_HIGHEST : Int := 3

/-! ## Error map (`_ftl_error_to_obs_error`) -/

/-- `ftl_status_t`: the ingest status codes named in the `switch` of
`_ftl_error_to_obs_error` (`FTL_UNKNOWN_ERROR_CODE` shares the
`default` arm, which also catches every code not otherwise listed). -/
inductive FtlStatusCode where
  | FTL_SUCCESS
  | FTL_SOCKET_NOT_CONNECTED
  | FTL_MALLOC_FAILURE
  | FTL_INTERNAL_ERROR
  | FTL_CONFIG_ERROR
  | FTL_NOT_ACTIVE_STREAM
  | FTL_NOT_CONNECTED
  | FTL_ALREADY_CONNECTED
  | FTL_STATUS_TIMEOUT
  | FTL_QUEUE_FULL
  | FTL_STATUS_WAITING_FOR_KEY_FRAME
  | FTL_QUEUE_EMPTY
  | FTL_NOT_INITIALIZED
  | FTL_BAD_REQUEST
  | FTL_DNS_FAILURE
  | FTL_CONNECT_ERROR
  | FTL_UNSUPPORTED_MEDIA_TYPE
  | FTL_OLD_VERSION
  | FTL_UNAUTHORIZED
  | FTL_AUDIO_SSRC_COLLISION
  | FTL_VIDEO_SSRC_COLLISION
  | FTL_STREAM_REJECTED
  | FTL_BAD_OR_INVALID_STREAM_KEY
  | FTL_CHANNEL_IN_USE
  | FTL_REGION_UNSUPPORTED
  | FTL_NO_MEDIA_TIMEOUT
  | FTL_USER_DISCONNECT
  | FTL_UNKNOWN_ERROR_CODE
deriving Repr, DecidableEq

/-- The host-visible outcome classes (`OBS_OUTPUT_*` codes returned
by `_ftl_error_to_obs_error`). -/
inductive ObsOutcome where
  | OBS_OUTPUT_SUCCESS
  | OBS_OUTPUT_ERROR
  | OBS_OUTPUT_CONNECT_FAILED
  | OBS_OUTPUT_DISCONNECTED
deriving Repr, DecidableEq

open FtlStatusCode ObsOutcome in
/-- `_ftl_error_to_obs_error` (ftl-stream.c, lines 1091-1155): the
`switch` mapping ingest status codes to OBS outcome codes, arm by
arm.  `FTL_UNKNOWN_ERROR_CODE` falls through to `default`. -/
def ftl_error_to_obs_error (status : FtlStatusCode) : ObsOutcome :=
  match status with
  | FTL_SUCCESS => OBS_OUTPUT_SUCCESS
  | FTL_SOCKET_NOT_CONNECTED => OBS_OUTPUT_ERROR
  | FTL_MALLOC_FAILURE => OBS_OUTPUT_ERROR
  | FTL_INTERNAL_ERROR => OBS_OUTPUT_ERROR
  | FTL_CONFIG_ERROR => OBS_OUTPUT_ERROR
  | FTL_NOT_ACTIVE_STREAM => OBS_OUTPUT_ERROR
  | FTL_NOT_CONNECTED => OBS_OUTPUT_ERROR
  | FTL_ALREADY_CONNECTED => OBS_OUTPUT_ERROR
  | FTL_STATUS_TIMEOUT => OBS_OUTPUT_ERROR
  | FTL_QUEUE_FULL => OBS_OUTPUT_ERROR
  | FTL_STATUS_WAITING_FOR_KEY_FRAME => OBS_OUTPUT_ERROR
  | FTL_QUEUE_EMPTY => OBS_OUTPUT_ERROR
  | FTL_NOT_INITIALIZED => OBS_OUTPUT_ERROR
  | FTL_BAD_REQUEST => OBS_OUTPUT_CONNECT_FAILED
  | FTL_DNS_FAILURE => OBS_OUTPUT_CONNECT_FAILED
  | FTL_CONNECT_ERROR => OBS_OUTPUT_CONNECT_FAILED
  | FTL_UNSUPPORTED_MEDIA_TYPE => OBS_OUTPUT_CONNECT_FAILED
  | FTL_OLD_VERSION => OBS_OUTPUT_CONNECT_FAILED
  | FTL_UNAUTHORIZED => OBS_OUTPUT_CONNECT_FAILED
  | FTL_AUDIO_SSRC_COLLISION => OBS_OUTPUT_CONNECT_FAILED
  | FTL_VIDEO_SSRC_COLLISION => OBS_OUTPUT_CONNECT_FAILED
  | FTL_STREAM_REJECTED => OBS_OUTPUT_CONNECT_FAILED
  | FTL_BAD_OR_INVALID_STREAM_KEY => OBS_OUTPUT_CONNECT_FAILED
  | FTL_CHANNEL_IN_USE => OBS_OUTPUT_CONNECT_FAILED
  | FTL_REGION_UNSUPPORTED => OBS_OUTPUT_CONNECT_FAILED
  | FTL_NO_MEDIA_TIMEOUT => OBS_OUTPUT_DISCONNECTED
  | FTL_USER_DISCONNECT => OBS_OUTPUT_SUCCESS
  | FTL_UNKNOWN_ERROR_CODE => OBS_OUTPUT_ERROR

open FtlStatusCode ObsOutcome in
/-- Modelled from the spec's error-map table (section 4.8): success
and user_disconnect map to success; the twelve listed transport
codes map to connect_failed; no_media_timeout maps to disconnected;
everything else, including unknown codes, maps to error. -/
def spec_error_map (status : FtlStatusCode) : ObsOutcome :=
  if status = FTL_SUCCESS ∨ status = FTL_USER_DISCONNECT then
    OBS_OUTPUT_SUCCESS
  else if status ∈ [FTL_BAD_REQUEST, FTL_DNS_FAILURE, FTL_CONNECT_ERROR,
      FTL_UNSUPPORTED_MEDIA_TYPE, FTL_OLD_VERSION, FTL_UNAUTHORIZED,
      FTL_AUDIO_SSRC_COLLISION, FTL_VIDEO_SSRC_COLLISION,
      FTL_STREAM_REJECTED, FTL_BAD_OR_INVALID_STREAM_KEY,
      FTL_CHANNEL_IN_USE, FTL_REGION_UNSUPPORTED] then
    OBS_OUTPUT_CONNECT_FAILED
  else if status = FTL_NO_MEDIA_TIMEOUT then
    OBS_OUTPUT_DISCONNECTED
  else
    OBS_OUTPUT_ERROR

/-! ## Stop (`ftl_stream_stop`) -/

/-- The slice of `struct ftl_stream` state that `ftl_stream_stop`
reads or writes, together with two observables: the number of thread
joins performed and the signals delivered to the host (none are
delivered by `ftl_stream_stop` itself). -/
structure StopState where
  stop_event_signaled : Bool
  stop_ts : Nat
  sem_posts : Nat
  connecting : Bool
  active : Bool
  joins : Nat
  host_signals : List ObsOutcome
deriving Repr, DecidableEq

/-- `ftl_stream_stop` (ftl-stream.c, lines 245-265): return at once
if the stop event is already signaled (`stopping`); otherwise join
the status and connect threads when `connecting`, record
`stop_ts = ts / 1000`, signal the stop event, and post the send
semaphore when `active` and the recorded deadline is zero. -/
def ftl_stream_stop (s : StopState) (ts : Nat) : StopState :=
  if s.stop_event_signaled then s
  else
    let s1 := if s.connecting then { s with joins := s.joins + 2 } else s
    let s2 := { s1 with stop_ts := ts / 1000, stop_event_signaled := true }
    if s2.active && (s2.stop_ts == 0) then
      { s2 with sem_posts := s2.sem_posts + 1 }
    else s2

theorem stop_event_signaled_after_stop (s : StopState) (ts : Nat) :
    (ftl_stream_stop s ts).stop_event_signaled = true := by
  unfold ftl_stream_stop
  split
  · assumption
  · dsimp only
    split <;> split <;> rfl

theorem stop_noop_of_signaled (s : StopState) (ts : Nat)
    (h : s.stop_event_signaled = true) : ftl_stream_stop s ts = s := by
  unfold ftl_stream_stop
  simp [h]

/-! ## NAL splitter (`avc_get_video_frame`) -/

/-- `nalu_t`: one entry of `coded_pic_buffer.nalus`.  The `data`
pointer is represented by the offset `off` of the payload inside the
originating packet's buffer; `len` is the advertised length exactly
as the C code stores it (possibly larger than the bytes remaining in
the buffer, see C4). -/
structure Nalu where
  off : Int
  len : Int
  send_marker_bit : Nat
deriving Repr, DecidableEq

/-- How the splitter's `while` loop ended: `ok` when `consumed`
reached the packet size, `err` for the `return -1` taken when the
100-entry `nalus` array is full, `fuelOut` when the modelled
execution ran out of fuel (the C loop has not terminated yet). -/
inductive SplitStatus where
  | ok
  | err
  | fuelOut
deriving Repr, DecidableEq

/-- Reading `buf[i]`: in-bounds reads return the byte; reads outside
the buffer (which the C code performs on malformed input) return 0,
standing for an arbitrary out-of-bounds byte. -/
def byteAt (data : List Nat) (i : Int) : Nat :=
  if 0 ≤ i then data.getD i.toNat 0 else 0

/-- `video_stream[0] << 24 | video_stream[1] << 16 | video_stream[2] << 8
| video_stream[3]` as the C `int` sees it: bytes ≥ 0x80 in the first
position make the 32-bit value negative. -/
def be32 (data : List Nat) (i : Int) : Int :=
  let v : Nat := byteAt data i * 2 ^ 24 + byteAt data (i + 1) * 2 ^ 16 +
    byteAt data (i + 2) * 2 ^ 8 + byteAt data (i + 3)
  if v < 2 ^ 31 then (v : Int) else (v : Int) - 2 ^ 32

/-- `video_stream[0] << 8 | video_stream[1]` (always non-negative). -/
def be16 (data : List Nat) (i : Int) : Int :=
  (byteAt data i * 2 ^ 8 + byteAt data (i + 1) : Nat)

/-- The bytes each iteration skips before the NAL payload: the AVCC
4-byte big-endian length prefix when `is_header` is false, or (the
6-byte obs header when `consumed == 0`, else the single 0x01 spacer)
plus the 2-byte big-endian length when `is_header` is true. -/
def nalPrefix (isHeader : Bool) (consumed : Int) : Int :=
  if isHeader then (if consumed = 0 then 6 else 1) + 2 else 4

/-- The advertised NAL length each iteration reads, located after
the header/spacer bytes. -/
def nalLen (data : List Nat) (isHeader : Bool) (consumed : Int) : Int :=
  if isHeader then be16 data (consumed + (if consumed = 0 then 6 else 1))
  else be32 data consumed

/-- The filter on the NAL's first byte: with `nalu_type = b & 0x1F`
and `nri = (b >> 5) & 0x3`, the NAL is stored unless `nalu_type`
is 6 (SEI), 9 (AUD) or 12 (filler) with `nri == 0`. -/
def nalKept (b : Nat) : Bool :=
  (b % 32 != 12 && b % 32 != 6 && b % 32 != 9) || (b / 32) % 4 != 0

/-- The body of `avc_get_video_frame`'s `while (consumed <
packet->size)` loop.  `consumed` counts bytes exactly as the C `int`
does (the pointer `video_stream` stays `consumed` bytes into the
packet); since `packet->size` is a `size_t`, a negative `consumed`
compares as a huge unsigned value and exits the loop, hence the
`0 ≤ consumed` conjunct.  Each iteration first returns `err` if the
100-entry `nalus` array is full, then strips the length prefix
(`nalPrefix`/`nalLen`), classifies the NAL by its first byte
(`nalKept`), and appends it with `send_marker_bit = 0` when kept.
The advertised length is added to `consumed` unclamped, even when
it exceeds the bytes remaining (the C code only logs then, see
C4). -/
def splitLoop (data : List Nat) (isHeader : Bool) : Nat → Int → List Nalu →
    List Nalu × SplitStatus
  | 0, _, acc => (acc, SplitStatus.fuelOut)
  | fuel + 1, consumed, acc =>
    if 0 ≤ consumed ∧ consumed < (data.length : Int) then
      if acc.length ≥ 100 then (acc, SplitStatus.err)
      else
        splitLoop data isHeader fuel
          (consumed + nalPrefix isHeader consumed + nalLen data isHeader consumed)
          (if nalKept (byteAt data (consumed + nalPrefix isHeader consumed)) then
            acc ++ [⟨consumed + nalPrefix isHeader consumed,
              nalLen data isHeader consumed, 0⟩]
          else acc)
    else (acc, SplitStatus.ok)

/-- The statement `stream->coded_pic_buffer.nalus[...total - 1]
.send_marker_bit = 1` executed after the loop when `is_header` is
false, modelled on the list of accumulated NAL units.  When the list
is empty the C code writes to `nalus[-1]`, outside the array: the
list model leaves `[]` unchanged and `markerWriteIndex` records the
index the C code actually writes (see C9). -/
def setLastMarker : List Nalu → List Nalu
  | [] => []
  | [n] => [{ n with send_marker_bit := 1 }]
  | n :: m :: rest => n :: setLastMarker (m :: rest)

/-- The index `coded_pic_buffer.total - 1` targeted by the final
marker-bit assignment of `avc_get_video_frame`, as the C `int`
arithmetic computes it from the number of accumulated NAL units. -/
def markerWriteIndex (total : Nat) : Int := (total : Int) - 1

/-- The 100-entry `nalus` array bounds for the final marker write. -/
def markerWriteInBounds (total : Nat) : Prop :=
  0 ≤ markerWriteIndex total ∧ markerWriteIndex total < 100

instance (total : Nat) : Decidable (markerWriteInBounds total) := by
  unfold markerWriteInBounds; infer_instance

/-- `avc_get_video_frame` (ftl-stream.c, lines 283-347), starting
from an empty `coded_pic_buffer` (as `send_packet` resets it): run
the splitter loop; on normal exit with `is_header = false` perform
the final marker-bit assignment on the last accumulated NAL unit; on
the `return -1` path (`err`) the buffer keeps the NAL units
accumulated so far and no marker is assigned. -/
def avcGetVideoFrame (data : List Nat) (isHeader : Bool) (fuel : Nat) :
    List Nalu × SplitStatus :=
  let r := splitLoop data isHeader fuel 0 []
  if r.2 = SplitStatus.ok ∧ isHeader = false then (setLastMarker r.1, r.2)
  else r

/-- The C return value of `avc_get_video_frame`: -1 on the buffer
overflow path, 0 otherwise. -/
def avcReturn (st : SplitStatus) : Int :=
  if st = SplitStatus.err then -1 else 0

/-! ## Send path (`send_packet`) -/

/-- What one `send_packet` call does, observably: the media units
handed to `ftl_ingest_send_media_dts` in order (for video, one per
NAL unit left in `coded_pic_buffer`; for audio, the whole payload
with marker 0), the counter deltas, the return value and whether the
packet was freed. -/
structure SendResult where
  sent : List Nalu
  bytes_delta : Int
  frames_sent_delta : Nat
  ret : Int
  freed : Bool
deriving Repr, DecidableEq

/-- `send_packet` (ftl-stream.c, lines 349-383).  `mediaBytes i` is
the byte count `ftl_ingest_send_media_dts` returns for the i-th call
(the ingest library is external, so it is a parameter).  The local
`ret` is initialized to 0 and never written again — in particular
the result of `avc_get_video_frame` is discarded — and
`obs_free_encoder_packet` runs on every path before returning. -/
def send_packet_model (ptype : PType) (data : List Nat) (isHeader : Bool)
    (fuel : Nat) (mediaBytes : Nat → Int) : SendResult :=
  match ptype with
  | PType.video =>
    let l := (avcGetVideoFrame data isHeader fuel).1
    { sent := l
      bytes_delta := (List.range l.length).foldl (fun a i => a + mediaBytes i) 0
      frames_sent_delta := (l.filter fun n => n.send_marker_bit == 1).length
      ret := 0
      freed := true }
  | PType.audio =>
    { sent := [⟨0, (data.length : Int), 0⟩]
      bytes_delta := mediaBytes 0
      frames_sent_delta := 0
      ret := 0
      freed := true }

/-- The `send_thread` branch `if (send_packet(...) < 0)` that sets
the `disconnected` atomic and exits the loop (ftl-stream.c, lines
438-441). -/
def send_thread_failure_branch (r : SendResult) : Bool :=
  decide (r.ret < 0)

/-! ## Drop policy (`drop_frames`) -/

/-- The retention test of `drop_frames`' sweep: audio packets and
video packets whose `drop_priority` is `OBS_NAL_PRIORITY_HIGHEST`
are pushed onto the new buffer, everything else is freed. -/
def keepPacket (p : EncoderPacket) : Bool :=
  p.type == PType.audio || p.drop_priority == OBS_NAL_PRIORITY_HIGHEST

/-- The `while (stream->packets.size)` sweep of `drop_frames`
(ftl-stream.c, lines 728-746), popping packets front-to-back.
State: the new buffer, the local `drop_priority` (updated to the
popped packet's `drop_priority` whenever it is larger and the packet
is discarded), `last_drop_dts_usec` (updated to every popped
packet's dts) and `num_frames_dropped`. -/
def drop_frames_loop : List EncoderPacket → List EncoderPacket → Int → Int → Nat →
    List EncoderPacket × Int × Int × Nat
  | [], buf, dp, last, n => (buf, dp, last, n)
  | p :: rest, buf, dp, last, n =>
    if keepPacket p then
      drop_frames_loop rest (buf ++ [p]) dp p.dts_usec n
    else
      drop_frames_loop rest buf (if dp < p.drop_priority then p.drop_priority else dp)
        p.dts_usec (n + 1)

/-- The stream fields `drop_frames` leaves behind. -/
structure DropResult where
  queue : List EncoderPacket
  min_priority : Int
  min_drop_dts_usec : Int
  dropped_frames : Int
deriving Repr, DecidableEq

/-- `drop_frames` (ftl-stream.c, lines 717-755): sweep the queue,
replace it by the retained packets, set `min_priority` to the final
local `drop_priority` (initially 0), set `min_drop_dts_usec` to the
dts of the last packet popped (initially 0), and add the number of
discarded packets to `dropped_frames`. -/
def drop_frames (q : List EncoderPacket) (dropped_frames : Int) : DropResult :=
  let r := drop_frames_loop q [] 0 0 0
  { queue := r.1
    min_priority := r.2.1
    min_drop_dts_usec := r.2.2.1
    dropped_frames := dropped_frames + (r.2.2.2 : Int) }

/-! ## Peak bitrate (`init_connect` / `set_peak_bitrate` / `try_connect`) -/

/-- The `params.peak_kbps` assignment of `init_connect`
(ftl-stream.c, line 1064) together with the function's local
`peak_bitrate` (lines 1040-1050): the local is computed as
`(int)((float)target_bitrate * 1.1)` raised to at least
`target_bitrate` (modelled with exact arithmetic, `11 * t / 10`, as
the value is never read), and the parameters receive 0 when the
cached `stream->peak_kbps` is negative and the cached value
otherwise — the local `peak_bitrate` is not used. -/
def init_connect_peak_kbps (target_bitrate peak_kbps : Int) : Int :=
  let peak_bitrate := 11 * target_bitrate / 10
  let _peak_bitrate := if peak_bitrate < target_bitrate then target_bitrate else peak_bitrate
  if peak_kbps < 0 then 0 else peak_kbps

/-- `set_peak_bitrate` (ftl-stream.c, lines 385-402): when the speed
test succeeds (`some v`, the probed peak kbps) the cached
`stream->peak_kbps` becomes the probed value; on failure it is only
logged and the cache is unchanged. -/
def set_peak_bitrate_cache (peak_kbps : Int) (speed_test_result : Option Int) : Int :=
  match speed_test_result with
  | some v => v
  | none => peak_kbps

/-- The probe guard in `try_connect` (ftl-stream.c, lines 676-678):
`set_peak_bitrate` runs only while the cached value is the negative
sentinel; on a reconnect with a cached probe result the cache is
left as is. -/
def try_connect_peak_kbps (peak_kbps : Int) (speed_test_result : Option Int) : Int :=
  if peak_kbps < 0 then set_peak_bitrate_cache peak_kbps speed_test_result
  else peak_kbps

/-- Modelled from the spec: "Peak bitrate defaults to 110% of target
bitrate with a floor at the target" — the value claim C6 says is
placed into the ingest parameters when no cached value exists. -/
def spec_default_peak_kbps (target_bitrate : Int) : Int :=
  max target_bitrate (11 * target_bitrate / 10)

/-! ## Status worker (`status_thread`) -/

/-- One completed `ftl_ingest_get_status` call, as `status_thread`
classifies it: first by the returned status code (timeout,
queue-empty, not-initialized), then by the message type of a
delivered message. -/
inductive StatusPoll where
  | code_timeout
  | code_queue_empty
  | code_not_initialized
  | event_disconnected (api_request : Bool)
  | log_message
  | video_packet_stats
  | video_packet_instant_stats
  | video_frame_stats
  | other_status (msg_type : Nat)
deriving Repr, DecidableEq

/-- `status_thread`'s loop (ftl-stream.c, lines 902-959).  The input
trace pairs each prospective iteration with the value the
`disconnected` atomic has when `while (!disconnected(stream))`
re-checks it; the second component is what `ftl_ingest_get_status`
would deliver if the iteration polls.  The result is the list of
polls actually performed, in order, and whether
`obs_output_signal_stop(OBS_OUTPUT_DISCONNECTED)` was raised
(the non-api-request disconnect event's `return 0`).  Timeout and
queue-empty codes `continue`; not-initialized `break`s;
a disconnect event with reason api-request `break`s silently; every
other message is logged and the loop continues. -/
def status_thread_run : List (Bool × StatusPoll) → List StatusPoll × Bool
  | [] => ([], false)
  | (dis, poll) :: rest =>
    if dis then ([], false)
    else
      match poll with
      | StatusPoll.code_not_initialized => ([poll], false)
      | StatusPoll.event_disconnected api_request =>
        if api_request then ([poll], false) else ([poll], true)
      | _ =>
        let r := status_thread_run rest
        (poll :: r.1, r.2)

/-! ## Concrete inputs used by the counterexamples -/

/-- A well-formed AVCC video payload of 404 bytes holding 101 NAL
units, each a 4-byte big-endian length prefix of value 0 followed by
an (empty) payload; the NAL byte read for classification is the 0 of
the following prefix (type 0, nri 0, which the filter keeps). -/
def zeros404 : List Nat := List.replicate 404 0

end FtlStream

namespace FtlStream

/-- C3: the error map returns success for success and
user_disconnect; connect_failed for bad_request, dns_failure,
connect_error, unsupported_media_type, old_version, unauthorized,
audio or video ssrc_collision, stream_rejected, bad_stream_key,
channel_in_use, and region_unsupported; disconnected for
no_media_timeout; and error for every other status code, including
unknown codes (`_ftl_error_to_obs_error` agrees with the spec's
table on every status code). -/
theorem error_map_matches_spec (status : FtlStatusCode) :
    ftl_error_to_obs_error status = spec_error_map status := by
  cases status <;> rfl

/-- C7: `ftl_stream_stop` is idempotent: a second (and hence any
further) call after a first stop call changes nothing — stop_ts, the
stop event, the semaphore post count, the joins performed and the
signals delivered to the host all equal those after a single call. -/
theorem stop_idempotent (s : StopState) (ts1 ts2 : Nat) :
    ftl_stream_stop (ftl_stream_stop s ts1) ts2 = ftl_stream_stop s ts1 :=
  stop_noop_of_signaled _ _ (stop_event_signaled_after_stop s ts1)

theorem splitLoop_marker_zero (data : List Nat) (isHeader : Bool) :
    ∀ (fuel : Nat) (c : Int) (acc : List Nalu),
      (∀ n ∈ acc, n.send_marker_bit = 0) →
      ∀ n ∈ (splitLoop data isHeader fuel c acc).1, n.send_marker_bit = 0 := by
  intro fuel
  induction fuel with
  | zero =>
    intro c acc h n hn
    exact h n hn
  | succ fuel ih =>
    intro c acc h n hn
    unfold splitLoop at hn
    by_cases hc : 0 ≤ c ∧ c < (data.length : Int)
    · rw [if_pos hc] at hn
      by_cases hfull : acc.length ≥ 100
      · rw [if_pos hfull] at hn
        exact h n hn
      · rw [if_neg hfull] at hn
        refine ih _ _ ?_ n hn
        intro m hm
        by_cases hk : nalKept (byteAt data (c + nalPrefix isHeader c))
        · rw [if_pos hk] at hm
          rcases List.mem_append.mp hm with hm' | hm'
          · exact h m hm'
          · rw [List.mem_singleton.mp hm']
        · rw [if_neg hk] at hm
          exact h m hm
    · rw [if_neg hc] at hn
      exact h n hn

theorem splitLoop_err_length (data : List Nat) (isHeader : Bool) :
    ∀ (fuel : Nat) (c : Int) (acc : List Nalu), acc.length ≤ 100 →
      (splitLoop data isHeader fuel c acc).2 = SplitStatus.err →
      (splitLoop data isHeader fuel c acc).1.length = 100 := by
  intro fuel
  induction fuel with
  | zero =>
    intro c acc _ herr
    exact absurd herr (by simp [splitLoop])
  | succ fuel ih =>
    intro c acc hlen herr
    unfold splitLoop at herr ⊢
    by_cases hc : 0 ≤ c ∧ c < (data.length : Int)
    · rw [if_pos hc] at herr ⊢
      by_cases hfull : acc.length ≥ 100
      · rw [if_pos hfull] at herr ⊢
        show acc.length = 100
        omega
      · rw [if_neg hfull] at herr ⊢
        refine ih _ _ ?_ herr
        by_cases hk : nalKept (byteAt data (c + nalPrefix isHeader c))
        · rw [if_pos hk]
          simp only [List.length_append, List.length_singleton]
          omega
        · rw [if_neg hk]
          omega
    · rw [if_neg hc] at herr
      exact absurd herr (by simp)

theorem setLastMarker_ne_nil (l : List Nalu) (h : l ≠ []) : setLastMarker l ≠ [] := by
  match l with
  | [] => exact absurd rfl h
  | [n] => simp [setLastMarker]
  | n :: m :: rest => simp [setLastMarker]

theorem setLastMarker_marker_count (l : List Nalu)
    (h0 : ∀ n ∈ l, n.send_marker_bit = 0) (hne : l ≠ []) :
    ((setLastMarker l).filter fun n => n.send_marker_bit == 1).length = 1 := by
  induction l with
  | nil => exact absurd rfl hne
  | cons n rest ih =>
    cases rest with
    | nil => simp [setLastMarker]
    | cons m rest' =>
      have hn0 : n.send_marker_bit = 0 := h0 n (by simp)
      have : ((setLastMarker (m :: rest')).filter
          fun x => x.send_marker_bit == 1).length = 1 := by
        refine ih ?_ (by simp)
        intro x hx
        exact h0 x (List.mem_cons_of_mem n hx)
      simpa [setLastMarker, List.filter_cons, hn0] using this

theorem setLastMarker_last (l : List Nalu) (hne : l ≠ []) :
    ∀ n, (setLastMarker l).getLast? = some n → n.send_marker_bit = 1 := by
  induction l with
  | nil => exact absurd rfl hne
  | cons n rest ih =>
    cases rest with
    | nil =>
      intro x hx
      simp [setLastMarker] at hx
      rw [← hx]
    | cons m rest' =>
      intro x hx
      rw [show setLastMarker (n :: m :: rest') = n :: setLastMarker (m :: rest')
        from rfl] at hx
      have hsm : setLastMarker (m :: rest') ≠ [] :=
        setLastMarker_ne_nil (m :: rest') (by simp)
      obtain ⟨y, ys, hy⟩ := List.exists_cons_of_ne_nil hsm
      rw [hy, List.getLast?_cons_cons, ← hy] at hx
      exact ih (by simp) x hx

theorem replicate_getD_zero : ∀ (r i : Nat), (List.replicate r (0 : Nat)).getD i 0 = 0 := by
  intro r
  induction r with
  | zero => intro i; simp
  | succ r ih =>
    intro i
    cases i with
    | zero => simp [List.replicate_succ]
    | succ i => simpa [List.replicate_succ] using ih i

theorem byteAt_zeros404 (i : Int) : byteAt zeros404 i = 0 := by
  unfold byteAt zeros404
  split
  · exact replicate_getD_zero 404 _
  · rfl

theorem be32_zeros404 (i : Int) : be32 zeros404 i = 0 := by
  simp [be32, byteAt_zeros404]

theorem splitLoop_zeros404_step (fuel : Nat) (c : Int) (acc : List Nalu)
    (h0 : 0 ≤ c) (h1 : c < 404) (h2 : acc.length < 100) :
    splitLoop zeros404 false (fuel + 1) c acc =
      splitLoop zeros404 false fuel (c + 4) (acc ++ [⟨c + 4, 0, 0⟩]) := by
  have hlen : (zeros404.length : Int) = 404 := by simp [zeros404]
  have hkept : nalKept (byteAt zeros404 (c + nalPrefix false c)) = true := by
    rw [byteAt_zeros404]; rfl
  have hpre : nalPrefix false c = 4 := rfl
  have hlen0 : nalLen zeros404 false c = 0 := by
    simp [nalLen, be32_zeros404]
  simp only [splitLoop]
  rw [if_pos ⟨h0, by omega⟩, if_neg (by omega), if_pos hkept, hpre, hlen0, add_zero]

theorem splitLoop_zeros404_reach : ∀ (k fuel : Nat) (c : Int) (acc : List Nalu),
    0 ≤ c → c + 4 * (k : Int) ≤ 404 → acc.length + k ≤ 100 →
    ∃ acc' : List Nalu, acc'.length = acc.length + k ∧
      splitLoop zeros404 false (fuel + k) c acc =
        splitLoop zeros404 false fuel (c + 4 * (k : Int)) acc' := by
  intro k
  induction k with
  | zero =>
    intro fuel c acc _ _ _
    exact ⟨acc, by simp, by norm_num⟩
  | succ k ih =>
    intro fuel c acc h0 h1 h2
    have hstep := splitLoop_zeros404_step (fuel + k) c acc h0
      (by push_cast at h1 ⊢; omega) (by omega)
    obtain ⟨acc', hl, hrun⟩ := ih fuel (c + 4) (acc ++ [⟨c + 4, 0, 0⟩])
      (by omega) (by push_cast at h1 ⊢; omega) (by simp; omega)
    refine ⟨acc', by simp at hl; omega, ?_⟩
    have hfuel : fuel + (k + 1) = (fuel + k) + 1 := rfl
    rw [hfuel, hstep, hrun]
    congr 1
    push_cast
    ring

theorem zeros404_split :
    (avcGetVideoFrame zeros404 false 101).2 = SplitStatus.err ∧
    (avcGetVideoFrame zeros404 false 101).1.length = 100 ∧
    ∀ n ∈ (avcGetVideoFrame zeros404 false 101).1, n.send_marker_bit = 0 := by
  obtain ⟨acc', hlen, hrun⟩ := splitLoop_zeros404_reach 100 1 0 [] le_rfl
    (by norm_num) (by simp)
  simp only [List.length_nil, Nat.zero_add] at hlen
  norm_num at hrun
  have hlen404 : (zeros404.length : Int) = 404 := by simp [zeros404]
  have hrun' : splitLoop zeros404 false 101 0 [] = (acc', SplitStatus.err) := by
    rw [hrun, show (1 : Nat) = 0 + 1 from rfl]
    simp only [splitLoop]
    rw [if_pos ⟨by norm_num, by rw [hlen404]; norm_num⟩, if_pos (by omega)]
  have hmarker := splitLoop_marker_zero zeros404 false 101 0 [] (by simp)
  unfold avcGetVideoFrame
  rw [hrun'] at hmarker ⊢
  exact ⟨rfl, by simpa using hlen, by simpa using hmarker⟩

theorem avcGetVideoFrame_of_not_ok (data : List Nat) (isHeader : Bool) (fuel : Nat)
    (h : (splitLoop data isHeader fuel 0 []).2 ≠ SplitStatus.ok) :
    avcGetVideoFrame data isHeader fuel = splitLoop data isHeader fuel 0 [] := by
  unfold avcGetVideoFrame
  rw [if_neg (fun hc => h hc.1)]

/-- C2 (amended): for every non-header video packet that the NAL
splitter parses to completion (the loop exits normally, returning 0)
and from which at least one NAL unit is emitted, exactly one emitted
NAL unit carries `send_marker_bit = 1` and it is the last one
emitted; for every packet parsed with `is_header = true`, no emitted
NAL unit carries `send_marker_bit = 1`. -/
theorem marker_bit_on_last_nal (data : List Nat) (fuel : Nat) :
    (∀ l, avcGetVideoFrame data false fuel = (l, SplitStatus.ok) → l ≠ [] →
      ((l.filter fun n => n.send_marker_bit == 1).length = 1 ∧
        ∀ n, l.getLast? = some n → n.send_marker_bit = 1)) ∧
    (∀ l st, avcGetVideoFrame data true fuel = (l, st) →
      ∀ n ∈ l, n.send_marker_bit = 0) := by
  constructor
  · intro l hl hne
    by_cases hok : (splitLoop data false fuel 0 []).2 = SplitStatus.ok
    · unfold avcGetVideoFrame at hl
      rw [if_pos ⟨hok, rfl⟩, Prod.mk.injEq] at hl
      obtain ⟨hl1, _⟩ := hl
      have hzero : ∀ n ∈ (splitLoop data false fuel 0 []).1, n.send_marker_bit = 0 :=
        splitLoop_marker_zero data false fuel 0 [] (by simp)
      have hacc : (splitLoop data false fuel 0 []).1 ≠ [] := by
        intro hnil
        rw [hnil] at hl1
        exact hne (hl1.symm.trans rfl)
      rw [← hl1]
      exact ⟨setLastMarker_marker_count _ hzero hacc, setLastMarker_last _ hacc⟩
    · rw [avcGetVideoFrame_of_not_ok data false fuel hok] at hl
      exact absurd (congrArg Prod.snd hl) hok
  · intro l st hl n hn
    have hdata : avcGetVideoFrame data true fuel = splitLoop data true fuel 0 [] := by
      unfold avcGetVideoFrame
      rw [if_neg (by simp)]
    rw [hdata] at hl
    have hl1 : l = (splitLoop data true fuel 0 []).1 := (congrArg Prod.fst hl).symm
    rw [hl1] at hn
    exact splitLoop_marker_zero data true fuel 0 [] (by simp) n hn

theorem marker_bit_on_last_nal_witness :
    ((([⟨4, 1, 1⟩] : List Nalu).filter fun n => n.send_marker_bit == 1).length = 1 ∧
      ∀ n, ([⟨4, 1, 1⟩] : List Nalu).getLast? = some n → n.send_marker_bit = 1) ∧
    (∀ n ∈ ([⟨8, 2, 0⟩, ⟨13, 1, 0⟩] : List Nalu), n.send_marker_bit = 0) :=
  ⟨(marker_bit_on_last_nal [0, 0, 0, 1, 101] 10).1 [⟨4, 1, 1⟩] (by decide) (by decide),
    (marker_bit_on_last_nal [0, 0, 0, 0, 0, 0, 0, 2, 103, 1, 1, 0, 1, 104] 10).2
      [⟨8, 2, 0⟩, ⟨13, 1, 0⟩] SplitStatus.ok (by decide)⟩

/-- C2 counterexample: `zeros404` is a non-header video packet from
which 100 NAL units are emitted, yet no emitted NAL unit carries
`send_marker_bit = 1` (the splitter hits the buffer-full error exit
before the final marker assignment), refuting the claim as stated
for every packet. -/
theorem marker_bit_counterexample :
    (avcGetVideoFrame zeros404 false 101).1.length = 100 ∧
    ((avcGetVideoFrame zeros404 false 101).1.filter
      fun n => n.send_marker_bit == 1).length ≠ 1 := by
  have h := zeros404_split
  refine ⟨h.2.1, ?_⟩
  have hnil : (avcGetVideoFrame zeros404 false 101).1.filter
      (fun n => n.send_marker_bit == 1) = [] := by
    rw [List.filter_eq_nil_iff]
    intro a ha
    simp [h.2.2 a ha]
  rw [hnil]
  simp

/-- C4: on the concrete non-header packet `[0, 0, 0, 10, 0x65]`
(advertised NAL length 10, but only 1 byte left after the prefix),
the splitter advances by the advertised amount and terminates, but
the emitted NAL unit keeps the unclamped length 10, so its
`(data, len)` slice `[4, 14)` extends 9 bytes past the 5-byte
buffer — the claim's clamping does not happen, and the send loop
will read past the end of the packet's data. -/
theorem unclamped_length_overrun :
    (avcGetVideoFrame [0, 0, 0, 10, 101] false 10).1 = [⟨4, 10, 1⟩] ∧
    (avcGetVideoFrame [0, 0, 0, 10, 101] false 10).2 = SplitStatus.ok ∧
    ∀ n ∈ (avcGetVideoFrame [0, 0, 0, 10, 101] false 10).1,
      ¬(n.off + n.len ≤ (([0, 0, 0, 10, 101] : List Nat).length : Int)) := by
  decide

/-- C5 (amended): whenever the splitter aborts a non-header packet
with the buffer-full error, `send_packet` ignores the error: the 100
NAL units accumulated before the abort (a partial access unit, none
of them carrying a marker bit) are still handed to
`ftl_ingest_send_media_dts`, and `send_packet` still returns 0.  The
packet queue is not touched by this path. -/
theorem splitter_overflow_partial_unit (data : List Nat) (fuel : Nat)
    (mediaBytes : Nat → Int)
    (herr : (avcGetVideoFrame data false fuel).2 = SplitStatus.err) :
    (send_packet_model PType.video data false fuel mediaBytes).sent =
      (avcGetVideoFrame data false fuel).1 ∧
    (avcGetVideoFrame data false fuel).1.length = 100 ∧
    (∀ n ∈ (avcGetVideoFrame data false fuel).1, n.send_marker_bit = 0) ∧
    avcReturn (avcGetVideoFrame data false fuel).2 = -1 ∧
    (send_packet_model PType.video data false fuel mediaBytes).ret = 0 := by
  by_cases hok : (splitLoop data false fuel 0 []).2 = SplitStatus.ok
  · exfalso
    unfold avcGetVideoFrame at herr
    rw [if_pos ⟨hok, rfl⟩] at herr
    rw [show ((setLastMarker (splitLoop data false fuel 0 []).1,
      (splitLoop data false fuel 0 []).2) : List Nalu × SplitStatus).2 =
      (splitLoop data false fuel 0 []).2 from rfl, hok] at herr
    exact SplitStatus.noConfusion herr
  · have hav := avcGetVideoFrame_of_not_ok data false fuel hok
    rw [hav] at herr
    refine ⟨rfl, ?_, ?_, ?_, rfl⟩
    · rw [hav]
      exact splitLoop_err_length data false fuel 0 [] (by simp) herr
    · rw [hav]
      exact splitLoop_marker_zero data false fuel 0 [] (by simp)
    · rw [hav, avcReturn, if_pos herr]

theorem splitter_overflow_partial_unit_witness :
    ((send_packet_model PType.video zeros404 false 101 (fun _ => 1)).sent =
      (avcGetVideoFrame zeros404 false 101).1 ∧
    (avcGetVideoFrame zeros404 false 101).1.length = 100 ∧
    (∀ n ∈ (avcGetVideoFrame zeros404 false 101).1, n.send_marker_bit = 0) ∧
    avcReturn (avcGetVideoFrame zeros404 false 101).2 = -1 ∧
    (send_packet_model PType.video zeros404 false 101 (fun _ => 1)).ret = 0) :=
  splitter_overflow_partial_unit zeros404 101 (fun _ => 1) zeros404_split.1

/-- C5 counterexample: on `zeros404` (101 NAL units in one packet)
the splitter returns the error, yet 100 NAL units of that packet are
handed to `ftl_ingest_send_media_dts` — the claim that no NAL unit
of the packet reaches `send_media` is false. -/
theorem splitter_overflow_counterexample :
    avcReturn (avcGetVideoFrame zeros404 false 101).2 = -1 ∧
    (send_packet_model PType.video zeros404 false 101 (fun _ => 0)).sent.length = 100 := by
  have h := zeros404_split
  constructor
  · rw [h.1, avcReturn, if_pos rfl]
  · show (avcGetVideoFrame zeros404 false 101).1.length = 100
    exact h.2.1

/-- C8: for every packet, `send_packet` frees the packet and returns
0 regardless of the byte counts `ftl_ingest_send_media_dts` reports
and regardless of the splitter's result (the hypothesis only rules
out the executions in which the C loop never terminates); hence the
`send_thread` branch that sets `disconnected` and exits when
`send_packet(...) < 0` is never taken, and a runtime send failure is
never detected through the send path. -/
theorem send_packet_always_returns_zero (ptype : PType) (data : List Nat)
    (isHeader : Bool) (fuel : Nat) (mediaBytes : Nat → Int)
    (hterm : (avcGetVideoFrame data isHeader fuel).2 ≠ SplitStatus.fuelOut) :
    (send_packet_model ptype data isHeader fuel mediaBytes).ret = 0 ∧
    (send_packet_model ptype data isHeader fuel mediaBytes).freed = true ∧
    send_thread_failure_branch
      (send_packet_model ptype data isHeader fuel mediaBytes) = false := by
  cases ptype <;> exact ⟨rfl, rfl, rfl⟩

theorem send_packet_always_returns_zero_witness :
    (send_packet_model PType.video [0, 0, 0, 1, 101] false 10 (fun _ => 7)).ret = 0 ∧
    (send_packet_model PType.video [0, 0, 0, 1, 101] false 10 (fun _ => 7)).freed = true ∧
    send_thread_failure_branch
      (send_packet_model PType.video [0, 0, 0, 1, 101] false 10 (fun _ => 7)) = false :=
  send_packet_always_returns_zero PType.video [0, 0, 0, 1, 101] false 10 (fun _ => 7)
    (by decide)

/-- C9: on the concrete non-header packet `[0, 0, 0, 1, 0x06]` (one
SEI NAL with nri = 0, so every NAL unit is filtered out and zero are
emitted) the splitter exits its loop normally with an empty buffer,
and the final marker-bit assignment targets index `total - 1 = -1`,
outside the 100-entry `nalus` array — the claimed in-bounds property
fails precisely in the zero-emitted case. -/
theorem marker_write_index_oob :
    (splitLoop [0, 0, 0, 1, 6] false 10 0 []).1 = [] ∧
    (splitLoop [0, 0, 0, 1, 6] false 10 0 []).2 = SplitStatus.ok ∧
    markerWriteIndex (splitLoop [0, 0, 0, 1, 6] false 10 0 []).1.length = -1 ∧
    ¬ markerWriteInBounds (splitLoop [0, 0, 0, 1, 6] false 10 0 []).1.length := by
  decide

theorem drop_frames_loop_queue : ∀ (q buf : List EncoderPacket) (dp last : Int) (n : Nat),
    (drop_frames_loop q buf dp last n).1 = buf ++ q.filter keepPacket := by
  intro q
  induction q with
  | nil => intro buf dp last n; simp [drop_frames_loop]
  | cons p rest ih =>
    intro buf dp last n
    by_cases hk : keepPacket p <;>
      simp [drop_frames_loop, hk, ih, List.filter_cons]

theorem drop_frames_loop_count : ∀ (q buf : List EncoderPacket) (dp last : Int) (n : Nat),
    (drop_frames_loop q buf dp last n).2.2.2 =
      n + (q.filter fun p => !keepPacket p).length := by
  intro q
  induction q with
  | nil => intro buf dp last n; simp [drop_frames_loop]
  | cons p rest ih =>
    intro buf dp last n
    by_cases hk : keepPacket p <;>
      simp [drop_frames_loop, hk, ih, List.filter_cons] <;> omega

theorem drop_frames_loop_last : ∀ (q : List EncoderPacket), q ≠ [] →
    ∀ (buf : List EncoderPacket) (dp last : Int) (n : Nat),
    ∃ x, q.getLast? = some x ∧ (drop_frames_loop q buf dp last n).2.2.1 = x.dts_usec := by
  intro q
  induction q with
  | nil => intro h; exact absurd rfl h
  | cons p rest ih =>
    intro _ buf dp last n
    cases rest with
    | nil =>
      refine ⟨p, rfl, ?_⟩
      by_cases hk : keepPacket p <;> simp [drop_frames_loop, hk]
    | cons m rest' =>
      by_cases hk : keepPacket p
      · obtain ⟨x, hx, hres⟩ := ih (by simp) (buf ++ [p]) dp p.dts_usec n
        refine ⟨x, ?_, ?_⟩
        · rw [List.getLast?_cons_cons]; exact hx
        · simpa [drop_frames_loop, hk] using hres
      · obtain ⟨x, hx, hres⟩ := ih (by simp) buf
          (if dp < p.drop_priority then p.drop_priority else dp) p.dts_usec (n + 1)
        refine ⟨x, ?_, ?_⟩
        · rw [List.getLast?_cons_cons]; exact hx
        · simpa [drop_frames_loop, hk] using hres

theorem drop_frames_loop_dp : ∀ (q buf : List EncoderPacket) (dp last : Int) (n : Nat),
    (drop_frames_loop q buf dp last n).2.1 =
      ((q.filter fun p => !keepPacket p).map EncoderPacket.drop_priority).foldl
        (fun a x => if a < x then x else a) dp := by
  intro q
  induction q with
  | nil => intro buf dp last n; simp [drop_frames_loop]
  | cons p rest ih =>
    intro buf dp last n
    by_cases hk : keepPacket p <;>
      simp [drop_frames_loop, hk, ih, List.filter_cons]

theorem if_lt_eq_max (a b : Int) : (if a < b then b else a) = max a b := by
  rcases lt_or_ge a b with h | h
  · rw [if_pos h, max_eq_right h.le]
  · rw [if_neg (not_lt.mpr h), max_eq_left h]

theorem foldl_max_ge_init : ∀ (l : List Int) (a : Int), a ≤ l.foldl max a := by
  intro l
  induction l with
  | nil => intro a; exact le_rfl
  | cons x xs ih => intro a; exact le_trans (le_max_left a x) (ih (max a x))

theorem foldl_max_ge_mem : ∀ (l : List Int) (a x : Int), x ∈ l → x ≤ l.foldl max a := by
  intro l
  induction l with
  | nil => intro a x hx; simp at hx
  | cons y ys ih =>
    intro a x hx
    rcases List.mem_cons.mp hx with h | h
    · subst h
      exact le_trans (le_max_right a x) (foldl_max_ge_init ys (max a x))
    · exact ih (max a y) x h

theorem foldl_max_choice : ∀ (l : List Int) (a : Int),
    l.foldl max a = a ∨ l.foldl max a ∈ l := by
  intro l
  induction l with
  | nil => intro a; exact Or.inl rfl
  | cons y ys ih =>
    intro a
    rcases ih (max a y) with h | h
    · rcases max_choice a y with hm | hm
      · exact Or.inl (by rw [List.foldl_cons, h, hm])
      · exact Or.inr (by rw [List.foldl_cons, h, hm]; exact List.mem_cons_self y ys)
    · exact Or.inr (List.mem_cons_of_mem y h)

/-- C1: during every drop episode, the sweep retains exactly the
audio packets and the video packets whose `drop_priority` is
`OBS_NAL_PRIORITY_HIGHEST`, in their original relative order,
discards every other packet, adds the number of discarded packets to
`dropped_frames`, sets `min_priority` to the maximum `drop_priority`
among the discarded packets, and sets `min_drop_dts_usec` to the dts
of the last packet examined.  (The hypotheses say a drop episode
actually discards something, and that the drop priorities are the
non-negative `OBS_NAL_PRIORITY_*` enum values.) -/
theorem drop_episode (q : List EncoderPacket) (df : Int)
    (hpos : ∀ p ∈ q, 0 ≤ p.drop_priority)
    (hdrop : q.filter (fun p => !keepPacket p) ≠ []) :
    (drop_frames q df).queue = q.filter keepPacket ∧
    (drop_frames q df).dropped_frames =
      df + ((q.filter fun p => !keepPacket p).length : Int) ∧
    (∃ x, q.getLast? = some x ∧ (drop_frames q df).min_drop_dts_usec = x.dts_usec) ∧
    (∃ p ∈ q.filter (fun p => !keepPacket p),
      (drop_frames q df).min_priority = p.drop_priority) ∧
    ∀ p ∈ q.filter (fun p => !keepPacket p),
      p.drop_priority ≤ (drop_frames q df).min_priority := by
  have hq : q ≠ [] := by
    intro h
    rw [h] at hdrop
    exact hdrop rfl
  have hdp : (drop_frames q df).min_priority =
      ((q.filter fun p => !keepPacket p).map EncoderPacket.drop_priority).foldl max 0 := by
    show (drop_frames_loop q [] 0 0 0).2.1 = _
    rw [drop_frames_loop_dp]
    congr 1
    funext a x
    exact if_lt_eq_max a x
  refine ⟨?_, ?_, ?_, ?_, ?_⟩
  · show (drop_frames_loop q [] 0 0 0).1 = _
    rw [drop_frames_loop_queue]
    simp
  · show df + ((drop_frames_loop q [] 0 0 0).2.2.2 : Int) = _
    rw [drop_frames_loop_count]
    simp
  · exact drop_frames_loop_last q hq [] 0 0 0
  · have hne : ((q.filter fun p => !keepPacket p).map EncoderPacket.drop_priority) ≠ [] := by
      simpa using hdrop
    rcases foldl_max_choice
        ((q.filter fun p => !keepPacket p).map EncoderPacket.drop_priority) 0 with h0 | hm
    · obtain ⟨x, hx⟩ := List.exists_mem_of_ne_nil _ hne
      obtain ⟨p, hp, hpx⟩ := List.mem_map.mp hx
      have hub := foldl_max_ge_mem _ 0 x hx
      have hxpos : 0 ≤ x := by
        rw [← hpx]
        exact hpos p (List.mem_of_mem_filter hp)
      have hx0 : x = 0 := le_antisymm (h0 ▸ hub) hxpos
      exact ⟨p, hp, by rw [hdp, h0, ← hx0, hpx]⟩
    · obtain ⟨p, hp, hpx⟩ := List.mem_map.mp hm
      exact ⟨p, hp, by rw [hdp, ← hpx]⟩
  · intro p hp
    rw [hdp]
    exact foldl_max_ge_mem _ 0 p.drop_priority
      (List.mem_map.mpr ⟨p, hp, rfl⟩)

theorem drop_episode_witness :
    ((∀ p ∈ ([⟨PType.audio, [], 10, 0, false, 0, 0, 0⟩,
        ⟨PType.video, [], 20, 0, true, 3, 3, 0⟩,
        ⟨PType.video, [], 30, 0, false, 1, 1, 0⟩,
        ⟨PType.video, [], 40, 0, false, 2, 2, 0⟩] : List EncoderPacket),
        0 ≤ p.drop_priority) ∧
      ([⟨PType.audio, [], 10, 0, false, 0, 0, 0⟩,
        ⟨PType.video, [], 20, 0, true, 3, 3, 0⟩,
        ⟨PType.video, [], 30, 0, false, 1, 1, 0⟩,
        ⟨PType.video, [], 40, 0, false, 2, 2, 0⟩] : List EncoderPacket).filter
          (fun p => !keepPacket p) ≠ []) ∧
    ((drop_frames ([⟨PType.audio, [], 10, 0, false, 0, 0, 0⟩,
        ⟨PType.video, [], 20, 0, true, 3, 3, 0⟩,
        ⟨PType.video, [], 30, 0, false, 1, 1, 0⟩,
        ⟨PType.video, [], 40, 0, false, 2, 2, 0⟩] : List EncoderPacket) 5).queue =
      ([⟨PType.audio, [], 10, 0, false, 0, 0, 0⟩,
        ⟨PType.video, [], 20, 0, true, 3, 3, 0⟩,
        ⟨PType.video, [], 30, 0, false, 1, 1, 0⟩,
        ⟨PType.video, [], 40, 0, false, 2, 2, 0⟩] : List EncoderPacket).filter keepPacket ∧
      (drop_frames ([⟨PType.audio, [], 10, 0, false, 0, 0, 0⟩,
        ⟨PType.video, [], 20, 0, true, 3, 3, 0⟩,
        ⟨PType.video, [], 30, 0, false, 1, 1, 0⟩,
        ⟨PType.video, [], 40, 0, false, 2, 2, 0⟩] : List EncoderPacket) 5).dropped_frames =
        5 + ((([⟨PType.audio, [], 10, 0, false, 0, 0, 0⟩,
        ⟨PType.video, [], 20, 0, true, 3, 3, 0⟩,
        ⟨PType.video, [], 30, 0, false, 1, 1, 0⟩,
        ⟨PType.video, [], 40, 0, false, 2, 2, 0⟩] : List EncoderPacket).filter
          fun p => !keepPacket p).length : Int) ∧
      (∃ x, ([⟨PType.audio, [], 10, 0, false, 0, 0, 0⟩,
        ⟨PType.video, [], 20, 0, true, 3, 3, 0⟩,
        ⟨PType.video, [], 30, 0, false, 1, 1, 0⟩,
        ⟨PType.video, [], 40, 0, false, 2, 2, 0⟩] : List EncoderPacket).getLast? = some x ∧
        (drop_frames ([⟨PType.audio, [], 10, 0, false, 0, 0, 0⟩,
        ⟨PType.video, [], 20, 0, true, 3, 3, 0⟩,
        ⟨PType.video, [], 30, 0, false, 1, 1, 0⟩,
        ⟨PType.video, [], 40, 0, false, 2, 2, 0⟩] : List EncoderPacket) 5).min_drop_dts_usec =
          x.dts_usec) ∧
      (∃ p ∈ ([⟨PType.audio, [], 10, 0, false, 0, 0, 0⟩,
        ⟨PType.video, [], 20, 0, true, 3, 3, 0⟩,
        ⟨PType.video, [], 30, 0, false, 1, 1, 0⟩,
        ⟨PType.video, [], 40, 0, false, 2, 2, 0⟩] : List EncoderPacket).filter
          (fun p => !keepPacket p),
        (drop_frames ([⟨PType.audio, [], 10, 0, false, 0, 0, 0⟩,
        ⟨PType.video, [], 20, 0, true, 3, 3, 0⟩,
        ⟨PType.video, [], 30, 0, false, 1, 1, 0⟩,
        ⟨PType.video, [], 40, 0, false, 2, 2, 0⟩] : List EncoderPacket) 5).min_priority =
          p.drop_priority) ∧
      ∀ p ∈ ([⟨PType.audio, [], 10, 0, false, 0, 0, 0⟩,
        ⟨PType.video, [], 20, 0, true, 3, 3, 0⟩,
        ⟨PType.video, [], 30, 0, false, 1, 1, 0⟩,
        ⟨PType.video, [], 40, 0, false, 2, 2, 0⟩] : List EncoderPacket).filter
          (fun p => !keepPacket p),
        p.drop_priority ≤ (drop_frames ([⟨PType.audio, [], 10, 0, false, 0, 0, 0⟩,
        ⟨PType.video, [], 20, 0, true, 3, 3, 0⟩,
        ⟨PType.video, [], 30, 0, false, 1, 1, 0⟩,
        ⟨PType.video, [], 40, 0, false, 2, 2, 0⟩] : List EncoderPacket) 5).min_priority) :=
  ⟨⟨by decide, by decide⟩,
    drop_episode _ 5 (by decide) (by decide)⟩

/-- C6 counterexample: with target bitrate 2500 kbps and no cached
value (sentinel -1), `init_connect` places 0 into
`params.peak_kbps`, not the spec's 110%-of-target value 2750 — the
computed `peak_bitrate` local is never stored into the ingest
parameters. -/
theorem peak_kbps_counterexample :
    init_connect_peak_kbps 2500 (-1) = 0 ∧
    spec_default_peak_kbps 2500 = 2750 ∧
    init_connect_peak_kbps 2500 (-1) ≠ spec_default_peak_kbps 2500 := by
  decide

/-- C6 (amended): the peak kbps placed into the ingest parameters is
0 (meaning unknown) when no cached value exists (negative sentinel)
and the cached value otherwise — it never depends on the target
bitrate, so the 110%-of-target local is computed but not placed.
After a successful probe caches `v`, a reconnect reuses the cached
value and skips the probe. -/
theorem peak_kbps_placed (target1 target2 cached v : Int) (probe : Option Int) :
    init_connect_peak_kbps target1 cached = init_connect_peak_kbps target2 cached ∧
    (cached < 0 → init_connect_peak_kbps target1 cached = 0) ∧
    (0 ≤ cached → init_connect_peak_kbps target1 cached = cached) ∧
    (0 ≤ cached → try_connect_peak_kbps cached probe = cached) ∧
    try_connect_peak_kbps (-1) (some v) = v := by
  unfold init_connect_peak_kbps try_connect_peak_kbps set_peak_bitrate_cache
  refine ⟨rfl, ?_, ?_, ?_, ?_⟩
  · intro h; rw [if_pos h]
  · intro h; rw [if_neg (not_lt.mpr h)]
  · intro h; rw [if_neg (not_lt.mpr h)]
  · rw [if_pos (by norm_num)]

theorem peak_kbps_placed_witness :
    init_connect_peak_kbps 2500 (-1) = 0 ∧
    init_connect_peak_kbps 2500 7000 = 7000 ∧
    try_connect_peak_kbps 7000 (some 9000) = 7000 ∧
    try_connect_peak_kbps (-1) (some 9000) = 9000 :=
  ⟨(peak_kbps_placed 2500 3000 (-1) 9000 (some 9000)).2.1 (by norm_num),
    (peak_kbps_placed 2500 3000 7000 9000 (some 9000)).2.2.1 (by norm_num),
    (peak_kbps_placed 2500 3000 7000 9000 (some 9000)).2.2.2.1 (by norm_num),
    (peak_kbps_placed 2500 3000 7000 9000 (some 9000)).2.2.2.2⟩

/-- C10: `status_thread` re-checks the `disconnected` atomic at the
top of every iteration, before each `ftl_ingest_get_status` poll:
whenever position `i` of the trace observes the flag as true, at
most `i` polls are performed, so no status message at or after that
position is ever processed. -/
theorem status_thread_stops_at_flag (trace : List (Bool × StatusPoll)) :
    ∀ (i : Nat) (m : StatusPoll), trace.get? i = some (true, m) →
      (status_thread_run trace).1.length ≤ i := by
  induction trace with
  | nil =>
    intro i m h
    simp at h
  | cons e rest ih =>
    obtain ⟨d, p⟩ := e
    intro i m h
    cases i with
    | zero =>
      rw [List.get?_cons_zero, Option.some.injEq, Prod.mk.injEq] at h
      simp [status_thread_run, h.1]
    | succ i =>
      rw [List.get?_cons_succ] at h
      by_cases hd : d
      · simp [status_thread_run, hd]
      · have hrest := ih i m h
        cases p <;> simp [status_thread_run, hd] <;>
          first
          | omega
          | (split <;> simp <;> omega)

theorem status_thread_stops_at_flag_witness :
    (status_thread_run [(false, StatusPoll.log_message),
      (true, StatusPoll.video_frame_stats),
      (false, StatusPoll.log_message)]).1.length ≤ 1 :=
  status_thread_stops_at_flag _ 1 StatusPoll.video_frame_stats (by decide)

end FtlStream
